import Mathlib

/-!
Shallow embedding of
`src/cartographer/mapping/internal/2d/scan_matching/real_time_correlative_scan_matcher_2d.cc`
(class `RealTimeCorrelativeScanMatcher2D`), the exhaustive real-time
correlative scan matcher.

Conventions of the embedding:
* C++ `float`/`double` arithmetic on grid values is embedded over `ℚ`
  (exact arithmetic); the penalty factor uses `Real.exp`/`Real.sqrt`, so the
  final candidate score lives in `ℝ`.
* A `CHECK`/`CHECK_GT`/`CHECK_GE`/`CHECK_EQ` failure (glog fatal abort) is
  embedded as the `none` value of an `Option` result.
* Collaborating types that are only declared in headers outside this
  excerpt (`Candidate2D`, `SearchParameters`, `DiscreteScan2D`, `GridType`,
  the grid classes) are modelled from the spec, as noted on each definition.
-/

namespace Cartographer

/-- Per-rotation inclusive linear search bounds, in grid cells.  Modelled from
the spec: `SearchParameters::LinearBounds` is declared in
`correlative_scan_matcher_2d.h`, which is not part of this excerpt; the spec
states the bounds are inclusive integer cell bounds `{min_x, max_x, min_y, max_y}`. -/
structure LinearBounds where
  min_x : ℤ
  max_x : ℤ
  min_y : ℤ
  max_y : ℤ
deriving DecidableEq, Repr

/-- Search window description.  Modelled from the spec: `SearchParameters` is
declared in `correlative_scan_matcher_2d.h`, outside this excerpt.  It carries
the number of discrete rotation steps `num_scans`, one `LinearBounds` per
rotation index, the grid resolution, and the angular discretization used to
assign a rotation angle to each scan index. -/
structure SearchParameters where
  num_scans : ℕ
  linear_bounds : List LinearBounds
  resolution : ℚ
  num_angular_perturbations : ℤ
  angular_perturbation_step_size : ℚ
deriving DecidableEq, Repr

/-- The inclusive integer range `[lo, hi]`, in increasing order; empty when
`hi < lo`.  This embeds the C++ loop
`for (int v = lo; v <= hi; ++v)`. -/
def intRange (lo hi : ℤ) : List ℤ :=
  (List.range (hi + 1 - lo).toNat).map (fun (k : ℕ) => lo + (k : ℤ))

/-- A candidate solution of the exhaustive search.  Modelled from the spec:
`Candidate2D` is declared in `correlative_scan_matcher_2d.h`, outside this
excerpt.  Per the spec it carries the scan (rotation) index, the integer cell
offsets, the real-valued offsets `x`, `y` (offset times resolution), the
orientation assigned to the scan index, and a mutable score filled in by
scoring. -/
structure Candidate2D where
  scan_index : ℕ
  x_index_offset : ℤ
  y_index_offset : ℤ
  x : ℚ
  y : ℚ
  orientation : ℚ
  score : ℝ

/-- Rotation angle assigned to a scan index.  Modelled from the spec: each
rotated scan is the input rotated by
`(scan_index − num_angular_perturbations) × angular_perturbation_step_size`. -/
def scanOrientation (p : SearchParameters) (scan_index : ℕ) : ℚ :=
  (((scan_index : ℤ) - p.num_angular_perturbations : ℤ) : ℚ) *
    p.angular_perturbation_step_size

/-- Construction of one candidate.  Modelled from the spec: the `Candidate2D`
constructor (in `correlative_scan_matcher_2d.h`, outside this excerpt) stores
the triple, sets `x`, `y` to offset × resolution and `orientation` to the
rotation angle assigned to `scan_index`; the score is unset before scoring
(represented here by `0`). -/
def mkCandidate2D (scan_index : ℕ) (x_index_offset y_index_offset : ℤ)
    (p : SearchParameters) : Candidate2D where
  scan_index := scan_index
  x_index_offset := x_index_offset
  y_index_offset := y_index_offset
  x := (x_index_offset : ℚ) * p.resolution
  y := (y_index_offset : ℚ) * p.resolution
  orientation := scanOrientation p scan_index
  score := 0

/-- Integer tag value of `GridType::PROBABILITY_GRID`.  Modelled from the
spec: `GridType` (declared in `grid_2d.h`, outside this excerpt) is an
integer-backed C++ enum with the two enumerators `PROBABILITY_GRID` and
`TSDF`; as a C++ enum it can also carry out-of-range values. -/
def GRID_TYPE_PROBABILITY : ℤ := 0

/-- Integer tag value of `GridType::TSDF`; see `GRID_TYPE_PROBABILITY`. -/
def GRID_TYPE_TSDF : ℤ := 1

/-- The polymorphic grid consumed by the matcher.  Modelled from the spec:
`Grid2D` and its two concrete variants live outside this excerpt.  The grid
reports a runtime variant tag; the probability variant answers
`GetProbability` per cell, the TSDF variant answers `GetTSDAndWeight` per
cell together with a fixed `GetMaxCorrespondenceCost`. -/
structure Grid2D where
  gridType : ℤ
  probAt : ℤ → ℤ → ℚ
  tsdAndWeightAt : ℤ → ℤ → ℚ × ℚ
  maxCorrespondenceCost : ℚ

/-- Configuration options consumed by the matcher (the two penalty weights;
the search-window sizes are consumed only by the `SearchParameters`
construction, which is outside this excerpt). -/
structure Options where
  translation_delta_cost_weight : ℝ
  rotation_delta_cost_weight : ℝ

/-- A discretized scan: one rotated-and-translated point cloud expressed as a
sequence of integer grid indices (`DiscreteScan2D`, declared outside this
excerpt as a vector of 2D integer indices). -/
abbrev DiscreteScan2D := List (ℤ × ℤ)

/-- Per-point normalized TSDF match value
`(maxCorrespondenceCost − |tsd|) / maxCorrespondenceCost`, as computed inside
the TSDF overload of `ComputeCandidateScore`. -/
def normalizedTSDScore (maxCorrespondenceCost tsd : ℚ) : ℚ :=
  (maxCorrespondenceCost - |tsd|) / maxCorrespondenceCost

/-- TSDF overload of `ComputeCandidateScore`
(`real_time_correlative_scan_matcher_2d.cc`, lines 39–60): accumulate the
weighted normalized TSD value and the summed weight over all scan points
(each shifted by the candidate offset), return `0` when the summed weight is
zero, otherwise divide and `CHECK_GE(candidate_score, 0.f)` (`none` embeds
the fatal check failure). -/
def computeCandidateScoreTSDF (tsdAndWeightAt : ℤ → ℤ → ℚ × ℚ)
    (maxCorrespondenceCost : ℚ) (discrete_scan : DiscreteScan2D)
    (x_index_offset y_index_offset : ℤ) : Option ℚ :=
  let acc : ℚ × ℚ := discrete_scan.foldl
    (fun (a : ℚ × ℚ) xy_index =>
      let tsd_and_weight :=
        tsdAndWeightAt (xy_index.1 + x_index_offset) (xy_index.2 + y_index_offset)
      (a.1 + normalizedTSDScore maxCorrespondenceCost tsd_and_weight.1 *
          tsd_and_weight.2,
       a.2 + tsd_and_weight.2))
    (0, 0)
  if acc.2 = 0 then some 0
  else
    let candidate_score := acc.1 / acc.2
    if 0 ≤ candidate_score then some candidate_score else none

/-- ProbabilityGrid overload of `ComputeCandidateScore`
(`real_time_correlative_scan_matcher_2d.cc`, lines 62–76): sum the occupancy
probabilities at each shifted scan point, divide by the scan size, and
`CHECK_GT(candidate_score, 0.f)` (`none` embeds the fatal check failure). -/
def computeCandidateScoreProb (probAt : ℤ → ℤ → ℚ)
    (discrete_scan : DiscreteScan2D)
    (x_index_offset y_index_offset : ℤ) : Option ℚ :=
  let s : ℚ := discrete_scan.foldl
    (fun acc xy_index =>
      acc + probAt (xy_index.1 + x_index_offset) (xy_index.2 + y_index_offset))
    0
  let candidate_score := s / (discrete_scan.length : ℚ)
  if 0 < candidate_score then some candidate_score else none

/-- The precomputed candidate total of
`GenerateExhaustiveSearchCandidates` (first loop, lines 97–110): the sum over
scan indices of `(max_x − min_x + 1) * (max_y − min_y + 1)`. -/
def numCandidatesTotal (p : SearchParameters) : ℤ :=
  (List.range p.num_scans).foldl
    (fun acc scan_index =>
      let b := p.linear_bounds.getD scan_index ⟨0, 0, 0, 0⟩
      acc + (b.max_x - b.min_x + 1) * (b.max_y - b.min_y + 1))
    0

/-- The triple-nested enumeration loop of
`GenerateExhaustiveSearchCandidates` (lines 115–129): scan index outermost,
`x_index_offset` in the middle, `y_index_offset` innermost. -/
def enumerateCandidates (p : SearchParameters) : List Candidate2D :=
  (List.range p.num_scans).flatMap fun scan_index =>
    let b := p.linear_bounds.getD scan_index ⟨0, 0, 0, 0⟩
    (intRange b.min_x b.max_x).flatMap fun x_index_offset =>
      (intRange b.min_y b.max_y).map fun y_index_offset =>
        mkCandidate2D scan_index x_index_offset y_index_offset p

/-- `RealTimeCorrelativeScanMatcher2D::GenerateExhaustiveSearchCandidates`
(lines 91–132): the enumeration followed by
`CHECK_EQ(candidates.size(), num_candidates)` (`none` embeds the fatal check
failure). -/
def generateExhaustiveSearchCandidates (p : SearchParameters) :
    Option (List Candidate2D) :=
  if ((enumerateCandidates p).length : ℤ) = numCandidatesTotal p then
    some (enumerateCandidates p)
  else none

/-- The C++ `std::hypot(x, y)`: the euclidean norm `sqrt (x² + y²)`. -/
noncomputable def hypot (x y : ℝ) : ℝ :=
  Real.sqrt (x ^ 2 + y ^ 2)

/-- The penalty applied at the end of `ScoreCandidates` (lines 229–233):
`exp(−Pow2(hypot(x, y) · translation_weight + |orientation| · rotation_weight))`,
with `common::Pow2 t = t · t` written as `t ^ 2`. -/
noncomputable def penaltyFactor (options : Options) (x y orient : ℚ) : ℝ :=
  Real.exp (-(hypot (x : ℝ) (y : ℝ) * options.translation_delta_cost_weight +
      |(orient : ℝ)| * options.rotation_delta_cost_weight) ^ 2)

/-- The `switch (grid.GetGridType())` dispatch inside `ScoreCandidates`
(lines 213–227).  The switch has no `default` case: when neither
`GridType::PROBABILITY_GRID` nor `GridType::TSDF` matches, no assignment is
made and `candidate.score` keeps its previous value `prev` — the embedding
returns `some prev` rather than a fatal `none`. -/
noncomputable def computeGridScore (grid : Grid2D) (discrete_scan : DiscreteScan2D)
    (x_index_offset y_index_offset : ℤ) (prev : ℝ) : Option ℝ :=
  if grid.gridType = GRID_TYPE_PROBABILITY then
    (computeCandidateScoreProb grid.probAt discrete_scan
        x_index_offset y_index_offset).map (fun q => (q : ℝ))
  else if grid.gridType = GRID_TYPE_TSDF then
    (computeCandidateScoreTSDF grid.tsdAndWeightAt grid.maxCorrespondenceCost
        discrete_scan x_index_offset y_index_offset).map (fun q => (q : ℝ))
  else some prev

/-- One iteration of the `for (Candidate2D& candidate : *candidates)` loop of
`ScoreCandidates` (lines 211–234): dispatch on the grid variant to obtain the
grid-dependent score for `discrete_scans[candidate.scan_index]` shifted by the
candidate offset, then multiply by the distance penalty. -/
noncomputable def scoreCandidate (options : Options) (grid : Grid2D)
    (discrete_scans : List DiscreteScan2D) (candidate : Candidate2D) :
    Option Candidate2D :=
  (computeGridScore grid (discrete_scans.getD candidate.scan_index [])
      candidate.x_index_offset candidate.y_index_offset candidate.score).map
    fun gridScore =>
      { candidate with
        score := gridScore *
          penaltyFactor options candidate.x candidate.y candidate.orientation }

/-- `RealTimeCorrelativeScanMatcher2D::ScoreCandidates` (lines 206–235):
score every candidate of the list, in order, with no early termination; a
fatal `CHECK` inside a grid scorer aborts the whole call (`none`). -/
noncomputable def scoreCandidates (options : Options) (grid : Grid2D)
    (discrete_scans : List DiscreteScan2D)
    (search_parameters : SearchParameters)
    (candidates : List Candidate2D) : Option (List Candidate2D) :=
  candidates.mapM (scoreCandidate options grid discrete_scans)

/-- `std::max_element` over a non-empty candidate list with `Candidate2D`'s
ordering.  Modelled from the spec for the comparison: `Candidate2D`'s
`operator<` (declared in `correlative_scan_matcher_2d.h`, outside this
excerpt) compares by score only.  `std::max_element` replaces the current
maximum only on a strictly greater element, hence keeps the first maximal
element in iteration order. -/
noncomputable def maxElement (c : Candidate2D) (cs : List Candidate2D) :
    Candidate2D :=
  cs.foldl (fun best d => if best.score < d.score then d else best) c

/-- A 2D rigid transform (`transform::Rigid2d`), reduced to the data the
matcher reads and writes: translation components and rotation angle.
Modelled from the external transform library: composing with
`Eigen::Rotation2Dd` adds rotation angles. -/
structure Rigid2 where
  tx : ℚ
  ty : ℚ
  theta : ℚ
deriving DecidableEq, Repr

/-- Body of `RealTimeCorrelativeScanMatcher2D::Match` (lines 146–193) after
the null check.  The construction of `SearchParameters`, the rotated scans
and the discretized scans (steps performed by collaborators declared outside
this excerpt, lines 152–178) is abstracted: their results
`search_parameters` and `discrete_scans` are taken as inputs.  The body
enumerates the candidates (fatal count check inside), scores them (fatal
score checks inside), dereferences `std::max_element` (undefined on an empty
range, embedded as `none`), and composes the refined pose:
translation `initial + (best.x, best.y)`, rotation
`initial_rotation * Rotation2D(best.orientation)` (angle addition), returning
`best.score`. -/
noncomputable def matchFromInputs (options : Options)
    (initial_pose_estimate : Rigid2) (search_parameters : SearchParameters)
    (discrete_scans : List DiscreteScan2D) (grid : Grid2D) :
    Option (Rigid2 × ℝ) :=
  (generateExhaustiveSearchCandidates search_parameters).bind fun candidates =>
    (scoreCandidates options grid discrete_scans search_parameters
        candidates).bind fun scored =>
      match scored with
      | [] => none
      | c :: cs =>
        let best_candidate := maxElement c cs
        some (⟨initial_pose_estimate.tx + best_candidate.x,
               initial_pose_estimate.ty + best_candidate.y,
               initial_pose_estimate.theta + best_candidate.orientation⟩,
              best_candidate.score)

/-- `RealTimeCorrelativeScanMatcher2D::Match` (lines 146–193).
`pose_estimate_null` models `pose_estimate == nullptr`; the first statement
of the function is `CHECK(pose_estimate != nullptr)` (fatal, `none`), before
any other computation. -/
noncomputable def Match (options : Options) (initial_pose_estimate : Rigid2)
    (search_parameters : SearchParameters)
    (discrete_scans : List DiscreteScan2D) (grid : Grid2D)
    (pose_estimate_null : Bool) : Option (Rigid2 × ℝ) :=
  if pose_estimate_null then none
  else matchFromInputs options initial_pose_estimate search_parameters
    discrete_scans grid

/-- Strict lexicographic order on the `(scan_index, x_index_offset,
y_index_offset)` triple of two candidates: the order in which the nested
enumeration loops of `GenerateExhaustiveSearchCandidates` emit candidates. -/
def CandidateLexLt (c d : Candidate2D) : Prop :=
  c.scan_index < d.scan_index ∨
    (c.scan_index = d.scan_index ∧
      (c.x_index_offset < d.x_index_offset ∨
        (c.x_index_offset = d.x_index_offset ∧
          c.y_index_offset < d.y_index_offset)))

/-! Concrete fixtures used to evaluate the embedded functions on closed
inputs. -/

/-- A probability grid whose every cell holds probability `1/2`. -/
def uniformHalfGrid : Grid2D :=
  ⟨GRID_TYPE_PROBABILITY, fun _ _ => 1/2, fun _ _ => (0, 0), 1⟩

/-- A probability grid whose every cell holds probability `3/4`. -/
def uniformThreeQuarterGrid : Grid2D :=
  ⟨GRID_TYPE_PROBABILITY, fun _ _ => 3/4, fun _ _ => (0, 0), 1⟩

/-- A grid whose variant tag `2` is neither `PROBABILITY_GRID` (0) nor
`TSDF` (1): a representable out-of-range value of the C++ enum. -/
def unknownTagGrid : Grid2D :=
  ⟨2, fun _ _ => 0, fun _ _ => (0, 0), 0⟩

/-- One rotation index whose discretized scan has a single point at the
origin cell. -/
def singlePointScan : List DiscreteScan2D := [[(0, 0)]]

/-- Search parameters with one rotation and a degenerate `[0,0] × [0,0]`
linear window: exactly one candidate. -/
def trivialSearchParameters : SearchParameters := ⟨1, [⟨0, 0, 0, 0⟩], 1, 0, 0⟩

/-- Options with both penalty weights zero (penalty factor `1`). -/
def zeroWeights : Options := ⟨0, 0⟩

/-- Options with both penalty weights one. -/
def unitWeights : Options := ⟨1, 1⟩

/-! Helper lemmas about the fold-based accumulations. -/

theorem foldl_add_eq_sum {α M : Type} [AddMonoid M] (f : α → M) (l : List α)
    (init : M) :
    l.foldl (fun acc a => acc + f a) init = init + (l.map f).sum := by
  induction l generalizing init with
  | nil => simp
  | cons a l ih => simp [ih, add_assoc]

theorem foldl_pair_add_eq_sum {α : Type} (f g : α → ℚ) (l : List α) (x y : ℚ) :
    l.foldl (fun (a : ℚ × ℚ) q => (a.1 + f q, a.2 + g q)) (x, y) =
      (x + (l.map f).sum, y + (l.map g).sum) := by
  induction l generalizing x y with
  | nil => simp
  | cons a l ih => simp [ih, add_assoc]

theorem computeCandidateScoreProb_eq (probAt : ℤ → ℤ → ℚ)
    (discrete_scan : DiscreteScan2D) (dx dy : ℤ) :
    computeCandidateScoreProb probAt discrete_scan dx dy =
      (if 0 < (discrete_scan.map (fun q => probAt (q.1 + dx) (q.2 + dy))).sum /
          (discrete_scan.length : ℚ) then
        some ((discrete_scan.map (fun q => probAt (q.1 + dx) (q.2 + dy))).sum /
          (discrete_scan.length : ℚ))
      else none) := by
  simp only [computeCandidateScoreProb]
  rw [foldl_add_eq_sum (fun q => probAt (q.1 + dx) (q.2 + dy)) discrete_scan 0,
    zero_add]

theorem computeCandidateScoreTSDF_eq (tsdAndWeightAt : ℤ → ℤ → ℚ × ℚ)
    (maxCorrespondenceCost : ℚ) (discrete_scan : DiscreteScan2D) (dx dy : ℤ) :
    computeCandidateScoreTSDF tsdAndWeightAt maxCorrespondenceCost
        discrete_scan dx dy =
      (if (discrete_scan.map
            (fun q => (tsdAndWeightAt (q.1 + dx) (q.2 + dy)).2)).sum = 0 then
        some 0
      else if 0 ≤ (discrete_scan.map (fun q =>
            normalizedTSDScore maxCorrespondenceCost
                (tsdAndWeightAt (q.1 + dx) (q.2 + dy)).1 *
              (tsdAndWeightAt (q.1 + dx) (q.2 + dy)).2)).sum /
          (discrete_scan.map
            (fun q => (tsdAndWeightAt (q.1 + dx) (q.2 + dy)).2)).sum then
        some ((discrete_scan.map (fun q =>
            normalizedTSDScore maxCorrespondenceCost
                (tsdAndWeightAt (q.1 + dx) (q.2 + dy)).1 *
              (tsdAndWeightAt (q.1 + dx) (q.2 + dy)).2)).sum /
          (discrete_scan.map
            (fun q => (tsdAndWeightAt (q.1 + dx) (q.2 + dy)).2)).sum)
      else none) := by
  simp only [computeCandidateScoreTSDF]
  rw [foldl_pair_add_eq_sum
      (fun q => normalizedTSDScore maxCorrespondenceCost
          (tsdAndWeightAt (q.1 + dx) (q.2 + dy)).1 *
        (tsdAndWeightAt (q.1 + dx) (q.2 + dy)).2)
      (fun q => (tsdAndWeightAt (q.1 + dx) (q.2 + dy)).2)
      discrete_scan 0 0,
    zero_add, zero_add]

/-- C2: the ProbabilityGrid candidate score is the arithmetic mean over all
scan points of the occupancy probability at the shifted cell index; a uniform
probability `p ∈ (0,1)` over the queried cells yields exactly `p`; and a
non-positive computed score is a fatal failure (`none`), not a returned
value. -/
theorem computeCandidateScoreProb_mean_spec :
    (∀ (probAt : ℤ → ℤ → ℚ) (scan : DiscreteScan2D) (dx dy : ℤ),
      0 < (scan.map (fun q => probAt (q.1 + dx) (q.2 + dy))).sum /
          (scan.length : ℚ) →
      computeCandidateScoreProb probAt scan dx dy =
        some ((scan.map (fun q => probAt (q.1 + dx) (q.2 + dy))).sum /
          (scan.length : ℚ)))
    ∧
    (∀ (probAt : ℤ → ℤ → ℚ) (p : ℚ) (scan : DiscreteScan2D) (dx dy : ℤ),
      scan ≠ [] → 0 < p → p < 1 →
      (∀ q ∈ scan, probAt (q.1 + dx) (q.2 + dy) = p) →
      computeCandidateScoreProb probAt scan dx dy = some p)
    ∧
    (∀ (probAt : ℤ → ℤ → ℚ) (scan : DiscreteScan2D) (dx dy : ℤ),
      ¬ 0 < (scan.map (fun q => probAt (q.1 + dx) (q.2 + dy))).sum /
          (scan.length : ℚ) →
      computeCandidateScoreProb probAt scan dx dy = none) := by
  refine ⟨?_, ?_, ?_⟩
  · intro probAt scan dx dy h
    rw [computeCandidateScoreProb_eq, if_pos h]
  · intro probAt p scan dx dy hne hp0 _hp1 huniform
    have hmap : scan.map (fun q => probAt (q.1 + dx) (q.2 + dy)) =
        scan.map (fun _ => p) :=
      List.map_congr_left huniform
    have hlen : (scan.length : ℚ) ≠ 0 := by
      have hpos : 0 < scan.length := List.length_pos.mpr hne
      exact_mod_cast Nat.pos_iff_ne_zero.mp hpos
    have hsum : (scan.map (fun q => probAt (q.1 + dx) (q.2 + dy))).sum =
        (scan.length : ℚ) * p := by
      rw [hmap]
      simp [List.map_const', mul_comm]
    rw [computeCandidateScoreProb_eq, hsum, mul_div_cancel_left₀ p hlen,
      if_pos hp0]
  · intro probAt scan dx dy h
    rw [computeCandidateScoreProb_eq, if_neg h]

/-- C3: the TSDF candidate score is the weight-weighted average over scan
points of the normalized value
`(maxCorrespondenceCost − |tsd|) / maxCorrespondenceCost`; a zero summed
weight yields score `0` with no division; a point whose distance magnitude
equals `maxCorrespondenceCost` contributes normalized value `0`, a point with
distance `0` contributes normalized value `1`. -/
theorem computeCandidateScoreTSDF_weighted_mean_spec :
    (∀ (tsdAndWeightAt : ℤ → ℤ → ℚ × ℚ) (maxCC : ℚ) (scan : DiscreteScan2D)
        (dx dy : ℤ),
      (scan.map (fun q => (tsdAndWeightAt (q.1 + dx) (q.2 + dy)).2)).sum ≠ 0 →
      0 ≤ (scan.map (fun q =>
          normalizedTSDScore maxCC (tsdAndWeightAt (q.1 + dx) (q.2 + dy)).1 *
            (tsdAndWeightAt (q.1 + dx) (q.2 + dy)).2)).sum /
        (scan.map (fun q => (tsdAndWeightAt (q.1 + dx) (q.2 + dy)).2)).sum →
      computeCandidateScoreTSDF tsdAndWeightAt maxCC scan dx dy =
        some ((scan.map (fun q =>
            normalizedTSDScore maxCC (tsdAndWeightAt (q.1 + dx) (q.2 + dy)).1 *
              (tsdAndWeightAt (q.1 + dx) (q.2 + dy)).2)).sum /
          (scan.map (fun q => (tsdAndWeightAt (q.1 + dx) (q.2 + dy)).2)).sum))
    ∧
    (∀ (tsdAndWeightAt : ℤ → ℤ → ℚ × ℚ) (maxCC : ℚ) (scan : DiscreteScan2D)
        (dx dy : ℤ),
      (scan.map (fun q => (tsdAndWeightAt (q.1 + dx) (q.2 + dy)).2)).sum = 0 →
      computeCandidateScoreTSDF tsdAndWeightAt maxCC scan dx dy = some 0)
    ∧
    (∀ (maxCC d : ℚ), |d| = maxCC → normalizedTSDScore maxCC d = 0)
    ∧
    (∀ maxCC : ℚ, 0 < maxCC → normalizedTSDScore maxCC 0 = 1) := by
  refine ⟨?_, ?_, ?_, ?_⟩
  · intro tsdAndWeightAt maxCC scan dx dy hw hnonneg
    rw [computeCandidateScoreTSDF_eq, if_neg hw, if_pos hnonneg]
  · intro tsdAndWeightAt maxCC scan dx dy hw
    rw [computeCandidateScoreTSDF_eq, if_pos hw]
  · intro maxCC d hd
    unfold normalizedTSDScore
    rw [hd, sub_self, zero_div]
  · intro maxCC hpos
    unfold normalizedTSDScore
    rw [abs_zero, sub_zero, div_self (ne_of_gt hpos)]

/-- C10: the ProbabilityGrid scorer produces no score on an empty discrete
scan (the unguarded division of the zero sum by the zero size cannot pass the
strict-positivity check, so the empty-scan case is a fatal failure, i.e. the
scorer is only well defined for non-empty scans), while the TSDF scorer
explicitly guards the zero-summed-weight case — in particular the empty
scan — and returns score `0` there. -/
theorem probabilityScorer_requires_nonempty_scan :
    (∀ (probAt : ℤ → ℤ → ℚ) (dx dy : ℤ),
      computeCandidateScoreProb probAt [] dx dy = none)
    ∧
    (∀ (tsdAndWeightAt : ℤ → ℤ → ℚ × ℚ) (maxCC : ℚ) (dx dy : ℤ),
      computeCandidateScoreTSDF tsdAndWeightAt maxCC [] dx dy = some 0) := by
  constructor
  · intro probAt dx dy
    rw [computeCandidateScoreProb_eq]
    norm_num
  · intro tsdAndWeightAt maxCC dx dy
    rw [computeCandidateScoreTSDF_eq]
    norm_num

/-! Helper lemmas about `intRange` and the enumeration. -/

theorem mem_intRange {lo hi x : ℤ} : x ∈ intRange lo hi ↔ lo ≤ x ∧ x ≤ hi := by
  simp only [intRange, List.mem_map, List.mem_range]
  constructor
  · rintro ⟨k, hk, rfl⟩
    omega
  · rintro ⟨h1, h2⟩
    exact ⟨(x - lo).toNat, by omega, by omega⟩

theorem length_intRange (lo hi : ℤ) :
    (intRange lo hi).length = (hi + 1 - lo).toNat := by
  rw [intRange, List.length_map, List.length_range]

theorem pairwise_intRange (lo hi : ℤ) : (intRange lo hi).Pairwise (· < ·) := by
  rw [intRange, List.pairwise_map]
  exact (List.pairwise_lt_range _).imp (fun h => by omega)

theorem length_flatMap_eq_sum {α β : Type} (l : List α) (f : α → List β) :
    (l.flatMap f).length = (l.map (fun a => (f a).length)).sum := by
  induction l with
  | nil => rfl
  | cons a l ih => simp [List.flatMap_cons, ih]

theorem sum_map_const_nat {α : Type} (l : List α) (c : ℕ) :
    (l.map (fun _ => c)).sum = l.length * c := by
  induction l with
  | nil => simp
  | cons a l ih => simp [ih, Nat.succ_mul, Nat.add_comm]

theorem pairwise_flatMap_of {α β : Type} {R : β → β → Prop} (f : α → List β) :
    ∀ l : List α, (∀ a ∈ l, (f a).Pairwise R) →
      l.Pairwise (fun a b => ∀ x ∈ f a, ∀ y ∈ f b, R x y) →
      (l.flatMap f).Pairwise R := by
  intro l
  induction l with
  | nil => intro _ _; simp
  | cons a l ih =>
    intro h1 h2
    rw [List.flatMap_cons, List.pairwise_append]
    obtain ⟨hcross, h2'⟩ := List.pairwise_cons.mp h2
    refine ⟨h1 a (List.mem_cons_self a l),
      ih (fun b hb => h1 b (List.mem_cons_of_mem a hb)) h2', ?_⟩
    intro x hx y hy
    obtain ⟨b, hb, hyb⟩ := List.mem_flatMap.mp hy
    exact hcross b hb x hx y hyb

theorem numCandidatesTotal_eq_sum (p : SearchParameters) :
    numCandidatesTotal p =
      ((List.range p.num_scans).map (fun scan_index =>
        let b := p.linear_bounds.getD scan_index ⟨0, 0, 0, 0⟩
        (b.max_x - b.min_x + 1) * (b.max_y - b.min_y + 1))).sum := by
  unfold numCandidatesTotal
  rw [foldl_add_eq_sum (fun scan_index =>
      let b := p.linear_bounds.getD scan_index ⟨0, 0, 0, 0⟩
      (b.max_x - b.min_x + 1) * (b.max_y - b.min_y + 1))
    (List.range p.num_scans) 0, zero_add]

/-- C5: when every per-rotation bound is well formed (inclusive bounds, as
the spec's `SearchParameters` invariant states), the number of enumerated
candidates equals the sum over rotation indices of
`(max_x − min_x + 1) * (max_y − min_y + 1)`; the precomputed total of
`GenerateExhaustiveSearchCandidates` is that same sum, so the final
`CHECK_EQ` (whose failure would be fatal) passes and the function returns
the enumerated list. -/
theorem generateExhaustiveSearchCandidates_count_spec (p : SearchParameters)
    (hwf : ∀ si, si < p.num_scans →
      (p.linear_bounds.getD si ⟨0, 0, 0, 0⟩).min_x ≤
          (p.linear_bounds.getD si ⟨0, 0, 0, 0⟩).max_x + 1 ∧
      (p.linear_bounds.getD si ⟨0, 0, 0, 0⟩).min_y ≤
          (p.linear_bounds.getD si ⟨0, 0, 0, 0⟩).max_y + 1) :
    (((enumerateCandidates p).length : ℤ) =
      ((List.range p.num_scans).map (fun scan_index =>
        let b := p.linear_bounds.getD scan_index ⟨0, 0, 0, 0⟩
        (b.max_x - b.min_x + 1) * (b.max_y - b.min_y + 1))).sum) ∧
    numCandidatesTotal p =
      ((List.range p.num_scans).map (fun scan_index =>
        let b := p.linear_bounds.getD scan_index ⟨0, 0, 0, 0⟩
        (b.max_x - b.min_x + 1) * (b.max_y - b.min_y + 1))).sum ∧
    generateExhaustiveSearchCandidates p = some (enumerateCandidates p) := by
  have hlen : ((enumerateCandidates p).length : ℤ) =
      ((List.range p.num_scans).map (fun scan_index =>
        let b := p.linear_bounds.getD scan_index ⟨0, 0, 0, 0⟩
        (b.max_x - b.min_x + 1) * (b.max_y - b.min_y + 1))).sum := by
    unfold enumerateCandidates
    rw [length_flatMap_eq_sum, Nat.cast_list_sum, List.map_map]
    refine congrArg List.sum (List.map_congr_left ?_)
    intro si hsi
    have hwfi := hwf si (List.mem_range.mp hsi)
    simp only [Function.comp_apply, length_flatMap_eq_sum, List.length_map,
      length_intRange, sum_map_const_nat]
    push_cast
    congr 1 <;> omega
  refine ⟨hlen, numCandidatesTotal_eq_sum p, ?_⟩
  unfold generateExhaustiveSearchCandidates
  rw [if_pos (by rw [hlen, numCandidatesTotal_eq_sum p])]

/-- Witness for `generateExhaustiveSearchCandidates_count_spec`: the spec's
search-window scenario — one rotation, linear bounds `[−1, 1] × [−1, 1]` —
yields exactly `9` candidates and a passing count check. -/
theorem generateExhaustiveSearchCandidates_count_spec_witness :
    ((∀ si, si < (1 : ℕ) →
      (([⟨-1, 1, -1, 1⟩] : List LinearBounds).getD si ⟨0, 0, 0, 0⟩).min_x ≤
          (([⟨-1, 1, -1, 1⟩] : List LinearBounds).getD si ⟨0, 0, 0, 0⟩).max_x + 1 ∧
      (([⟨-1, 1, -1, 1⟩] : List LinearBounds).getD si ⟨0, 0, 0, 0⟩).min_y ≤
          (([⟨-1, 1, -1, 1⟩] : List LinearBounds).getD si ⟨0, 0, 0, 0⟩).max_y + 1) ∧
      ((enumerateCandidates ⟨1, [⟨-1, 1, -1, 1⟩], 1, 0, 0⟩).length : ℤ) = 9) ∧
    generateExhaustiveSearchCandidates ⟨1, [⟨-1, 1, -1, 1⟩], 1, 0, 0⟩ =
      some (enumerateCandidates ⟨1, [⟨-1, 1, -1, 1⟩], 1, 0, 0⟩) := by
  have hwf : ∀ si, si < (1 : ℕ) →
      (([⟨-1, 1, -1, 1⟩] : List LinearBounds).getD si ⟨0, 0, 0, 0⟩).min_x ≤
          (([⟨-1, 1, -1, 1⟩] : List LinearBounds).getD si ⟨0, 0, 0, 0⟩).max_x + 1 ∧
      (([⟨-1, 1, -1, 1⟩] : List LinearBounds).getD si ⟨0, 0, 0, 0⟩).min_y ≤
          (([⟨-1, 1, -1, 1⟩] : List LinearBounds).getD si ⟨0, 0, 0, 0⟩).max_y + 1 := by
    decide
  have h := generateExhaustiveSearchCandidates_count_spec
    ⟨1, [⟨-1, 1, -1, 1⟩], 1, 0, 0⟩ hwf
  refine ⟨⟨hwf, ?_⟩, h.2.2⟩
  rw [h.1]
  decide

theorem mem_enumerateCandidates {p : SearchParameters} {c : Candidate2D} :
    c ∈ enumerateCandidates p ↔
      ∃ si xo yo, si < p.num_scans ∧
        ((p.linear_bounds.getD si ⟨0, 0, 0, 0⟩).min_x ≤ xo ∧
          xo ≤ (p.linear_bounds.getD si ⟨0, 0, 0, 0⟩).max_x ∧
          (p.linear_bounds.getD si ⟨0, 0, 0, 0⟩).min_y ≤ yo ∧
          yo ≤ (p.linear_bounds.getD si ⟨0, 0, 0, 0⟩).max_y) ∧
        c = mkCandidate2D si xo yo p := by
  simp only [enumerateCandidates, List.mem_flatMap, List.mem_map,
    List.mem_range, mem_intRange]
  constructor
  · rintro ⟨si, hsi, xo, ⟨hxo1, hxo2⟩, yo, ⟨hyo1, hyo2⟩, rfl⟩
    exact ⟨si, xo, yo, hsi, ⟨hxo1, hxo2, hyo1, hyo2⟩, rfl⟩
  · rintro ⟨si, xo, yo, hsi, ⟨hxo1, hxo2, hyo1, hyo2⟩, rfl⟩
    exact ⟨si, hsi, xo, ⟨hxo1, hxo2⟩, yo, ⟨hyo1, hyo2⟩, rfl⟩

theorem pairwise_enumerateCandidates (p : SearchParameters) :
    (enumerateCandidates p).Pairwise CandidateLexLt := by
  unfold enumerateCandidates
  refine pairwise_flatMap_of _ _ ?_ ?_
  · intro si _
    refine pairwise_flatMap_of _ _ ?_ ?_
    · intro xo _
      rw [List.pairwise_map]
      exact (pairwise_intRange _ _).imp
        (fun h => Or.inr ⟨rfl, Or.inr ⟨rfl, h⟩⟩)
    · refine (pairwise_intRange _ _).imp ?_
      intro xo xo' h x hx y hy
      obtain ⟨yo, _, rfl⟩ := List.mem_map.mp hx
      obtain ⟨yo', _, rfl⟩ := List.mem_map.mp hy
      exact Or.inr ⟨rfl, Or.inl h⟩
  · refine (List.pairwise_lt_range _).imp ?_
    intro si sj h x hx y hy
    obtain ⟨xo, _, hx'⟩ := List.mem_flatMap.mp hx
    obtain ⟨yo, _, rfl⟩ := List.mem_map.mp hx'
    obtain ⟨xo', _, hy'⟩ := List.mem_flatMap.mp hy
    obtain ⟨yo', _, rfl⟩ := List.mem_map.mp hy'
    exact Or.inl h

/-- C6: the enumeration of `GenerateExhaustiveSearchCandidates` produces
exactly the triples `(scan_index, x_index_offset, y_index_offset)` within the
`SearchParameters` bounds (membership characterization), in strictly
increasing lexicographic order of the triple — i.e. deterministic nested
order with the scan index outermost, `x_index_offset` in the middle and
`y_index_offset` innermost, one candidate per triple — and every produced
candidate has `x` and `y` equal to its offsets times the resolution and
`orientation` equal to the rotation assigned to its scan index. -/
theorem generateExhaustiveSearchCandidates_enumeration_spec
    (p : SearchParameters) :
    (∀ c : Candidate2D, c ∈ enumerateCandidates p ↔
      ∃ si xo yo, si < p.num_scans ∧
        ((p.linear_bounds.getD si ⟨0, 0, 0, 0⟩).min_x ≤ xo ∧
          xo ≤ (p.linear_bounds.getD si ⟨0, 0, 0, 0⟩).max_x ∧
          (p.linear_bounds.getD si ⟨0, 0, 0, 0⟩).min_y ≤ yo ∧
          yo ≤ (p.linear_bounds.getD si ⟨0, 0, 0, 0⟩).max_y) ∧
        c = mkCandidate2D si xo yo p) ∧
    (enumerateCandidates p).Pairwise CandidateLexLt ∧
    (∀ c ∈ enumerateCandidates p,
      c.x = (c.x_index_offset : ℚ) * p.resolution ∧
      c.y = (c.y_index_offset : ℚ) * p.resolution ∧
      c.orientation = scanOrientation p c.scan_index) := by
  refine ⟨fun c => mem_enumerateCandidates, pairwise_enumerateCandidates p, ?_⟩
  intro c hc
  obtain ⟨si, xo, yo, _, _, rfl⟩ := mem_enumerateCandidates.mp hc
  exact ⟨rfl, rfl, rfl⟩

/-- Witness for `generateExhaustiveSearchCandidates_enumeration_spec` at a
concrete window with two x offsets: the candidate for triple `(0, 1, 0)` is
enumerated and carries the prescribed fields, and the whole enumeration is
lexicographically ordered. -/
theorem generateExhaustiveSearchCandidates_enumeration_spec_witness :
    mkCandidate2D 0 1 0 ⟨1, [⟨0, 1, 0, 0⟩], 1, 0, 0⟩ ∈
        enumerateCandidates ⟨1, [⟨0, 1, 0, 0⟩], 1, 0, 0⟩ ∧
    (enumerateCandidates ⟨1, [⟨0, 1, 0, 0⟩], 1, 0, 0⟩).Pairwise
        CandidateLexLt ∧
    (mkCandidate2D 0 1 0 ⟨1, [⟨0, 1, 0, 0⟩], 1, 0, 0⟩).x =
      ((mkCandidate2D 0 1 0 ⟨1, [⟨0, 1, 0, 0⟩], 1, 0, 0⟩).x_index_offset : ℚ) *
        (⟨1, [⟨0, 1, 0, 0⟩], 1, 0, 0⟩ : SearchParameters).resolution ∧
    (mkCandidate2D 0 1 0 ⟨1, [⟨0, 1, 0, 0⟩], 1, 0, 0⟩).orientation =
      scanOrientation ⟨1, [⟨0, 1, 0, 0⟩], 1, 0, 0⟩
        (mkCandidate2D 0 1 0 ⟨1, [⟨0, 1, 0, 0⟩], 1, 0, 0⟩).scan_index := by
  have h := generateExhaustiveSearchCandidates_enumeration_spec
    ⟨1, [⟨0, 1, 0, 0⟩], 1, 0, 0⟩
  have hmem : mkCandidate2D 0 1 0 ⟨1, [⟨0, 1, 0, 0⟩], 1, 0, 0⟩ ∈
      enumerateCandidates ⟨1, [⟨0, 1, 0, 0⟩], 1, 0, 0⟩ :=
    (h.1 _).mpr ⟨0, 1, 0, Nat.zero_lt_one, by decide, rfl⟩
  exact ⟨hmem, h.2.1, (h.2.2 _ hmem).1, (h.2.2 _ hmem).2.2⟩

/-- Witness for `computeCandidateScoreProb_mean_spec`: a one-point scan over
a uniform probability `3/5 ∈ (0,1)` scores exactly `3/5`. -/
theorem computeCandidateScoreProb_mean_spec_witness :
    computeCandidateScoreProb (fun _ _ => (3/5 : ℚ)) [(0, 0)] 0 0 =
      some (3/5) :=
  computeCandidateScoreProb_mean_spec.2.1 (fun _ _ => (3/5 : ℚ)) (3/5)
    [(0, 0)] 0 0 (by simp) (by norm_num) (by norm_num) (fun q _ => rfl)

/-- Witness for `computeCandidateScoreTSDF_weighted_mean_spec`: a one-point
scan with signed distance `0`, weight `1` and max correspondence cost `2`
scores exactly `1`. -/
theorem computeCandidateScoreTSDF_weighted_mean_spec_witness :
    computeCandidateScoreTSDF (fun _ _ => ((0 : ℚ), (1 : ℚ))) 2 [(0, 0)] 0 0 =
      some 1 := by
  have h := computeCandidateScoreTSDF_weighted_mean_spec.1
    (fun _ _ => ((0 : ℚ), (1 : ℚ))) 2 [(0, 0)] 0 0
    (by norm_num) (by norm_num [normalizedTSDScore])
  rw [h]
  norm_num [normalizedTSDScore]

/-- The fold performed by `std::max_element` returns the first maximal
element: the traversed list splits as `l1 ++ best :: l2` where everything
before `best` scores strictly less and nothing scores more. -/
theorem maxElement_first_max :
    ∀ (cs : List Candidate2D) (c : Candidate2D),
      ∃ l1 l2, c :: cs = l1 ++ maxElement c cs :: l2 ∧
        (∀ d ∈ l1, d.score < (maxElement c cs).score) ∧
        (∀ d ∈ c :: cs, d.score ≤ (maxElement c cs).score) := by
  intro cs
  induction cs with
  | nil =>
    intro c
    exact ⟨[], [], rfl, by simp, by simp [maxElement]⟩
  | cons x xs ih =>
    intro c
    have hstep : maxElement c (x :: xs) =
        maxElement (if c.score < x.score then x else c) xs := rfl
    by_cases h : c.score < x.score
    · have heq : maxElement c (x :: xs) = maxElement x xs := by
        rw [hstep, if_pos h]
      obtain ⟨l1, l2, hdec, hlt, hle⟩ := ih x
      refine ⟨c :: l1, l2, ?_, ?_, ?_⟩
      · rw [heq, List.cons_append, ← hdec]
      · intro d hd
        rcases List.mem_cons.mp hd with rfl | hd'
        · rw [heq]
          exact lt_of_lt_of_le h (hle x (List.mem_cons_self x xs))
        · rw [heq]
          exact hlt d hd'
      · intro d hd
        rcases List.mem_cons.mp hd with rfl | hd'
        · rw [heq]
          exact le_of_lt (lt_of_lt_of_le h (hle x (List.mem_cons_self x xs)))
        · rw [heq]
          exact hle d hd'
    · have heq : maxElement c (x :: xs) = maxElement c xs := by
        rw [hstep, if_neg h]
      obtain ⟨l1, l2, hdec, hlt, hle⟩ := ih c
      cases l1 with
      | nil =>
        rw [List.nil_append] at hdec
        injection hdec with hb hl2
        refine ⟨[], x :: xs, ?_, by simp, ?_⟩
        · rw [List.nil_append, heq, ← hb]
        · intro d hd
          rcases List.mem_cons.mp hd with rfl | hd'
          · rw [heq, ← hb]
          · rcases List.mem_cons.mp hd' with rfl | hd''
            · rw [heq, ← hb]
              exact le_of_not_lt h
            · rw [heq]
              exact hle d (List.mem_cons_of_mem c hd'')
      | cons e l1' =>
        rw [List.cons_append] at hdec
        injection hdec with he hxs
        subst he
        have hcb : c.score < (maxElement c xs).score :=
          hlt c (List.mem_cons_self c l1')
        refine ⟨c :: x :: l1', l2, ?_, ?_, ?_⟩
        · rw [heq, List.cons_append, List.cons_append, ← hxs]
        · intro d hd
          rcases List.mem_cons.mp hd with rfl | hd'
          · rw [heq]
            exact hcb
          · rcases List.mem_cons.mp hd' with rfl | hd''
            · rw [heq]
              exact lt_of_le_of_lt (le_of_not_lt h) hcb
            · rw [heq]
              exact hlt d (List.mem_cons_of_mem c hd'')
        · intro d hd
          rcases List.mem_cons.mp hd with rfl | hd'
          · rw [heq]
            exact hle _ (List.mem_cons_self _ xs)
          · rcases List.mem_cons.mp hd' with rfl | hd''
            · rw [heq]
              exact le_trans (le_of_not_lt h) (hle _ (List.mem_cons_self _ xs))
            · rw [heq]
              exact hle d (List.mem_cons_of_mem _ hd'')

/-- C1: when `Match`'s body returns a pose and a score, there is a scored
candidate list (produced by enumeration and scoring) and a first maximal
candidate `best` of that list — everything enumerated before it scores
strictly less, nothing scores more — such that the returned pose is the
initial translation plus `(best.x, best.y)` with the initial rotation
composed with `best.orientation`, and the returned value is `best.score`. -/
theorem Match_selects_first_max (options : Options)
    (initial_pose_estimate : Rigid2) (search_parameters : SearchParameters)
    (discrete_scans : List DiscreteScan2D) (grid : Grid2D)
    (pose : Rigid2) (s : ℝ)
    (h : matchFromInputs options initial_pose_estimate search_parameters
        discrete_scans grid = some (pose, s)) :
    ∃ candidates scored l1 best l2,
      generateExhaustiveSearchCandidates search_parameters = some candidates ∧
      scoreCandidates options grid discrete_scans search_parameters
          candidates = some scored ∧
      scored = l1 ++ best :: l2 ∧
      (∀ d ∈ l1, d.score < best.score) ∧
      (∀ d ∈ scored, d.score ≤ best.score) ∧
      pose = ⟨initial_pose_estimate.tx + best.x,
              initial_pose_estimate.ty + best.y,
              initial_pose_estimate.theta + best.orientation⟩ ∧
      s = best.score := by
  unfold matchFromInputs at h
  cases hg : generateExhaustiveSearchCandidates search_parameters with
  | none =>
    rw [hg, Option.none_bind] at h
    simp at h
  | some candidates =>
    rw [hg, Option.some_bind] at h
    cases hs : scoreCandidates options grid discrete_scans search_parameters
        candidates with
    | none =>
      rw [hs, Option.none_bind] at h
      simp at h
    | some scored =>
      rw [hs, Option.some_bind] at h
      cases scored with
      | nil => simp at h
      | cons c cs =>
        obtain ⟨l1, l2, hdec, hlt, hle⟩ := maxElement_first_max cs c
        simp only [Option.some.injEq, Prod.mk.injEq] at h
        exact ⟨candidates, c :: cs, l1, maxElement c cs, l2, rfl, hs, hdec,
          hlt, hle, h.1.symm, h.2.symm⟩

/-- Witness for `Match_selects_first_max`: one candidate over the uniform
`1/2` probability grid with zero penalty weights; the match returns the
initial pose unchanged and score `1/2`. -/
theorem Match_selects_first_max_witness :
    matchFromInputs zeroWeights ⟨1, 2, 0⟩ trivialSearchParameters
        singlePointScan uniformHalfGrid = some (⟨1, 2, 0⟩, (1/2 : ℝ)) ∧
    ∃ candidates scored l1 best l2,
      generateExhaustiveSearchCandidates trivialSearchParameters =
        some candidates ∧
      scoreCandidates zeroWeights uniformHalfGrid singlePointScan
          trivialSearchParameters candidates = some scored ∧
      scored = l1 ++ best :: l2 ∧
      (∀ d ∈ l1, d.score < best.score) ∧
      (∀ d ∈ scored, d.score ≤ best.score) ∧
      (⟨1, 2, 0⟩ : Rigid2) =
        ⟨(1 : ℚ) + best.x, (2 : ℚ) + best.y, (0 : ℚ) + best.orientation⟩ ∧
      (1/2 : ℝ) = best.score := by
  have hrange : List.range 1 = [0] := rfl
  have henum : enumerateCandidates trivialSearchParameters =
      [mkCandidate2D 0 0 0 trivialSearchParameters] := by
    simp [enumerateCandidates, trivialSearchParameters, intRange, hrange]
  have hgen : generateExhaustiveSearchCandidates trivialSearchParameters =
      some [mkCandidate2D 0 0 0 trivialSearchParameters] := by
    rw [generateExhaustiveSearchCandidates, henum]
    norm_num [numCandidatesTotal, trivialSearchParameters, hrange]
  have hmk : mkCandidate2D 0 0 0 trivialSearchParameters =
      ⟨0, 0, 0, 0, 0, 0, 0⟩ := by
    simp [mkCandidate2D, scanOrientation, trivialSearchParameters]
  have hprob : computeCandidateScoreProb (fun _ _ => (2⁻¹ : ℚ)) [(0, 0)] 0 0 =
      some 2⁻¹ := by
    norm_num [computeCandidateScoreProb]
  have hone : scoreCandidate zeroWeights uniformHalfGrid singlePointScan
      ⟨0, 0, 0, 0, 0, 0, 0⟩ = some ⟨0, 0, 0, 0, 0, 0, (1/2 : ℝ)⟩ := by
    simp [scoreCandidate, computeGridScore, uniformHalfGrid, singlePointScan,
      GRID_TYPE_PROBABILITY, hprob, penaltyFactor, hypot, zeroWeights,
      -Prod.mk_zero_zero]
  have hsc : scoreCandidates zeroWeights uniformHalfGrid singlePointScan
      trivialSearchParameters [(⟨0, 0, 0, 0, 0, 0, 0⟩ : Candidate2D)] =
      some [⟨0, 0, 0, 0, 0, 0, (1/2 : ℝ)⟩] := by
    unfold scoreCandidates
    simp only [List.mapM_cons, List.mapM_nil, hone]
    rfl
  have hcomp : matchFromInputs zeroWeights ⟨1, 2, 0⟩ trivialSearchParameters
      singlePointScan uniformHalfGrid = some (⟨1, 2, 0⟩, (1/2 : ℝ)) := by
    unfold matchFromInputs
    rw [hgen, hmk, Option.some_bind, hsc, Option.some_bind]
    simp [maxElement]
  exact ⟨hcomp, Match_selects_first_max zeroWeights ⟨1, 2, 0⟩
    trivialSearchParameters singlePointScan uniformHalfGrid ⟨1, 2, 0⟩
    (1/2 : ℝ) hcomp⟩

theorem hypot_nonneg (x y : ℝ) : 0 ≤ hypot x y :=
  Real.sqrt_nonneg _

theorem hypot_zero_zero : hypot 0 0 = 0 := by
  simp [hypot]

theorem hypot_three_four : hypot 3 4 = 5 := by
  rw [hypot, show ((3 : ℝ) ^ 2 + 4 ^ 2) = 5 ^ 2 by norm_num]
  exact Real.sqrt_sq (by norm_num)

/-- Counterexample to C4 as stated: with a zero translation weight, a
candidate with strictly larger `hypot(x, y)`, the same orientation and the
same raw score receives exactly the same final score, not a strictly smaller
one — the claimed strict decrease fails when the corresponding weight is
zero. -/
theorem penalty_monotonicity_counterexample :
    hypot ((0 : ℚ) : ℝ) ((0 : ℚ) : ℝ) < hypot ((3 : ℚ) : ℝ) ((4 : ℚ) : ℝ) ∧
    (1 : ℝ) * penaltyFactor ⟨0, 1⟩ 3 4 0 =
      1 * penaltyFactor ⟨0, 1⟩ 0 0 0 := by
  constructor
  · push_cast
    rw [hypot_zero_zero, hypot_three_four]
    norm_num
  · simp [penaltyFactor]

/-- C4 (amended): the final score is the raw score times
`exp(−(hypot(x, y) · translationWeight + |orientation| · rotationWeight)²)`;
and — provided the raw score is strictly positive, the weight of the varied
quantity is strictly positive and the other weight is non-negative —
increasing `hypot(x, y)` or `|orientation|` strictly decreases the final
score. -/
theorem penalty_spec_amended :
    (∀ (options : Options) (x y orient : ℚ),
      penaltyFactor options x y orient =
        Real.exp (-(hypot (x : ℝ) (y : ℝ) *
              options.translation_delta_cost_weight +
            |(orient : ℝ)| * options.rotation_delta_cost_weight) ^ 2)) ∧
    (∀ (options : Options) (raw : ℝ) (x1 y1 x2 y2 orient : ℚ),
      0 < raw → 0 < options.translation_delta_cost_weight →
      0 ≤ options.rotation_delta_cost_weight →
      hypot (x1 : ℝ) (y1 : ℝ) < hypot (x2 : ℝ) (y2 : ℝ) →
      raw * penaltyFactor options x2 y2 orient <
        raw * penaltyFactor options x1 y1 orient) ∧
    (∀ (options : Options) (raw : ℝ) (x y o1 o2 : ℚ),
      0 < raw → 0 ≤ options.translation_delta_cost_weight →
      0 < options.rotation_delta_cost_weight →
      |(o1 : ℝ)| < |(o2 : ℝ)| →
      raw * penaltyFactor options x y o2 <
        raw * penaltyFactor options x y o1) := by
  refine ⟨fun _ _ _ _ => rfl, ?_, ?_⟩
  · intro options raw x1 y1 x2 y2 orient hraw htw hrw hlt
    unfold penaltyFactor
    refine mul_lt_mul_of_pos_left ?_ hraw
    refine Real.exp_lt_exp.mpr (neg_lt_neg ?_)
    refine pow_lt_pow_left₀ ?_ ?_ two_ne_zero
    · exact add_lt_add_right (mul_lt_mul_of_pos_right hlt htw) _
    · exact add_nonneg (mul_nonneg (hypot_nonneg _ _) htw.le)
        (mul_nonneg (abs_nonneg _) hrw)
  · intro options raw x y o1 o2 hraw htw hrw hlt
    unfold penaltyFactor
    refine mul_lt_mul_of_pos_left ?_ hraw
    refine Real.exp_lt_exp.mpr (neg_lt_neg ?_)
    refine pow_lt_pow_left₀ ?_ ?_ two_ne_zero
    · exact add_lt_add_left (mul_lt_mul_of_pos_right hlt hrw) _
    · exact add_nonneg (mul_nonneg (hypot_nonneg _ _) htw)
        (mul_nonneg (abs_nonneg _) hrw.le)

/-- Witness for `penalty_spec_amended`: with unit weights and raw score `1`,
moving from offset `(0, 0)` to `(3, 4)` (hypot `0` to `5`) strictly lowers
the final score. -/
theorem penalty_spec_amended_witness :
    ((0 : ℝ) < 1 ∧
      hypot ((0 : ℚ) : ℝ) ((0 : ℚ) : ℝ) < hypot ((3 : ℚ) : ℝ) ((4 : ℚ) : ℝ)) ∧
    (1 : ℝ) * penaltyFactor unitWeights 3 4 0 <
      1 * penaltyFactor unitWeights 0 0 0 := by
  have hlt : hypot ((0 : ℚ) : ℝ) ((0 : ℚ) : ℝ) <
      hypot ((3 : ℚ) : ℝ) ((4 : ℚ) : ℝ) := by
    push_cast
    rw [hypot_zero_zero, hypot_three_four]
    norm_num
  refine ⟨⟨one_pos, hlt⟩, ?_⟩
  exact penalty_spec_amended.2.1 unitWeights 1 0 0 3 4 0 one_pos
    (by norm_num [unitWeights]) (by norm_num [unitWeights]) hlt

/-- Counterexample to C7 as stated: a grid whose tag `2` is neither
`PROBABILITY_GRID` (0) nor `TSDF` (1) reaches the scoring dispatch and the
call *succeeds* (`some`, not the fatal `none`): the `switch` in
`ScoreCandidates` has no `default` case, so the unmatched tag silently skips
the grid scoring and only the penalty multiplication runs (here leaving the
zero score unchanged). -/
theorem scoreCandidates_unknown_variant_counterexample :
    (2 : ℤ) ≠ GRID_TYPE_PROBABILITY ∧ (2 : ℤ) ≠ GRID_TYPE_TSDF ∧
    scoreCandidates zeroWeights unknownTagGrid [] trivialSearchParameters
        [⟨0, 0, 0, 0, 0, 0, 0⟩] = some [⟨0, 0, 0, 0, 0, 0, 0⟩] := by
  refine ⟨by decide, by decide, ?_⟩
  have hone : scoreCandidate zeroWeights unknownTagGrid []
      ⟨0, 0, 0, 0, 0, 0, 0⟩ = some ⟨0, 0, 0, 0, 0, 0, 0⟩ := by
    simp [scoreCandidate, computeGridScore, unknownTagGrid,
      GRID_TYPE_PROBABILITY, GRID_TYPE_TSDF]
  unfold scoreCandidates
  simp only [List.mapM_cons, List.mapM_nil, hone]
  rfl

/-- C7 (amended): when a grid whose variant tag matches neither
`PROBABILITY_GRID` nor `TSDF` reaches the scoring dispatch, the program does
*not* fail: the tag matches no `switch` case, each candidate's grid score is
silently left at its previous value, and only the distance penalty is
applied. -/
theorem scoreCandidates_unknown_variant_amended (options : Options)
    (grid : Grid2D) (discrete_scans : List DiscreteScan2D)
    (p : SearchParameters) (candidates : List Candidate2D)
    (h0 : grid.gridType ≠ GRID_TYPE_PROBABILITY)
    (h1 : grid.gridType ≠ GRID_TYPE_TSDF) :
    scoreCandidates options grid discrete_scans p candidates =
      some (candidates.map fun c =>
        { c with score := c.score *
            penaltyFactor options c.x c.y c.orientation }) := by
  induction candidates with
  | nil => rfl
  | cons c cs ih =>
    have hc : scoreCandidate options grid discrete_scans c =
        some { c with score := c.score *
          penaltyFactor options c.x c.y c.orientation } := by
      simp [scoreCandidate, computeGridScore, if_neg h0, if_neg h1]
    unfold scoreCandidates at ih ⊢
    simp only [List.mapM_cons, hc, ih, List.map_cons]
    rfl

/-- Witness for `scoreCandidates_unknown_variant_amended`: the unknown-tag
grid scores a concrete candidate list without a fatal failure. -/
theorem scoreCandidates_unknown_variant_amended_witness :
    (unknownTagGrid.gridType ≠ GRID_TYPE_PROBABILITY ∧
      unknownTagGrid.gridType ≠ GRID_TYPE_TSDF) ∧
    scoreCandidates zeroWeights unknownTagGrid [] trivialSearchParameters
        [⟨1, 2, 3, 4, 5, 6, 7⟩] =
      some (([⟨1, 2, 3, 4, 5, 6, 7⟩] : List Candidate2D).map fun c =>
        { c with score := c.score *
            penaltyFactor zeroWeights c.x c.y c.orientation }) := by
  refine ⟨⟨by decide, by decide⟩, ?_⟩
  exact scoreCandidates_unknown_variant_amended zeroWeights unknownTagGrid []
    trivialSearchParameters [⟨1, 2, 3, 4, 5, 6, 7⟩] (by decide) (by decide)

/-- C8: `Match` fails fatally (`none`) when the output-pose target is null —
the `CHECK(pose_estimate != nullptr)` is the first statement of the function,
before any computation — and for every non-null target the check passes and
`Match` runs exactly its body `matchFromInputs`. -/
theorem Match_null_check_spec :
    (∀ (options : Options) (initial_pose_estimate : Rigid2)
        (search_parameters : SearchParameters)
        (discrete_scans : List DiscreteScan2D) (grid : Grid2D),
      Match options initial_pose_estimate search_parameters discrete_scans
        grid true = none) ∧
    (∀ (options : Options) (initial_pose_estimate : Rigid2)
        (search_parameters : SearchParameters)
        (discrete_scans : List DiscreteScan2D) (grid : Grid2D),
      Match options initial_pose_estimate search_parameters discrete_scans
        grid false =
        matchFromInputs options initial_pose_estimate search_parameters
          discrete_scans grid) :=
  ⟨fun _ _ _ _ _ => rfl, fun _ _ _ _ _ => rfl⟩

theorem mapM_eq_some_forall₂ {α β : Type} (f : α → Option β) :
    ∀ (l : List α) (out : List β), l.mapM f = some out →
      List.Forall₂ (fun a b => f a = some b) l out := by
  intro l
  induction l with
  | nil =>
    intro out h
    simp only [List.mapM_nil, Option.pure_def, Option.some.injEq] at h
    subst h
    exact List.Forall₂.nil
  | cons a l ih =>
    intro out h
    simp only [List.mapM_cons, Option.pure_def, Option.bind_eq_bind,
      Option.bind_eq_some] at h
    obtain ⟨b, hb, rest, hrest, hout⟩ := h
    obtain rfl : b :: rest = out := Option.some.inj hout
    exact List.Forall₂.cons hb (ih rest hrest)

/-- C9: a successful `ScoreCandidates` call scores every candidate of the
list — the output has the same length, and at every position the candidate's
`scan_index`, offsets, `x`, `y` and `orientation` are unchanged while its
score is written exactly once, to the dispatched grid score times the
penalty factor.  The grid, the discretized scans and the search parameters
are inputs only. -/
theorem scoreCandidates_frame_spec (options : Options) (grid : Grid2D)
    (discrete_scans : List DiscreteScan2D) (p : SearchParameters)
    (candidates out : List Candidate2D)
    (h : scoreCandidates options grid discrete_scans p candidates =
      some out) :
    out.length = candidates.length ∧
    ∀ (i : ℕ) (hi : i < candidates.length) (ho : i < out.length),
      ((out.get ⟨i, ho⟩).scan_index =
          (candidates.get ⟨i, hi⟩).scan_index ∧
        (out.get ⟨i, ho⟩).x_index_offset =
          (candidates.get ⟨i, hi⟩).x_index_offset ∧
        (out.get ⟨i, ho⟩).y_index_offset =
          (candidates.get ⟨i, hi⟩).y_index_offset ∧
        (out.get ⟨i, ho⟩).x = (candidates.get ⟨i, hi⟩).x ∧
        (out.get ⟨i, ho⟩).y = (candidates.get ⟨i, hi⟩).y ∧
        (out.get ⟨i, ho⟩).orientation =
          (candidates.get ⟨i, hi⟩).orientation) ∧
      ∃ gridScore,
        computeGridScore grid
            (discrete_scans.getD (candidates.get ⟨i, hi⟩).scan_index [])
            (candidates.get ⟨i, hi⟩).x_index_offset
            (candidates.get ⟨i, hi⟩).y_index_offset
            (candidates.get ⟨i, hi⟩).score = some gridScore ∧
        (out.get ⟨i, ho⟩).score = gridScore *
          penaltyFactor options (candidates.get ⟨i, hi⟩).x
            (candidates.get ⟨i, hi⟩).y
            (candidates.get ⟨i, hi⟩).orientation := by
  have hf := mapM_eq_some_forall₂ _ candidates out h
  refine ⟨hf.length_eq.symm, ?_⟩
  intro i hi ho
  have hr := (List.forall₂_iff_get.mp hf).2 i hi ho
  unfold scoreCandidate at hr
  rw [Option.map_eq_some'] at hr
  obtain ⟨gs, hgs, hrec⟩ := hr
  rw [← hrec]
  exact ⟨⟨rfl, rfl, rfl, rfl, rfl, rfl⟩, gs, hgs, rfl⟩

/-- Witness for `scoreCandidates_frame_spec`: scoring one candidate over the
uniform `3/4` probability grid with zero penalty weights succeeds, writes
score `3/4`, and the scored list has the same length as the input list. -/
theorem scoreCandidates_frame_spec_witness :
    scoreCandidates zeroWeights uniformThreeQuarterGrid singlePointScan
        trivialSearchParameters [⟨0, 0, 0, 0, 0, 0, 0⟩] =
      some [⟨0, 0, 0, 0, 0, 0, (3/4 : ℝ)⟩] ∧
    ([(⟨0, 0, 0, 0, 0, 0, (3/4 : ℝ)⟩ : Candidate2D)]).length =
      ([(⟨0, 0, 0, 0, 0, 0, 0⟩ : Candidate2D)]).length := by
  have hprob34 : computeCandidateScoreProb (fun _ _ => (3/4 : ℚ)) [(0, 0)]
      0 0 = some (3/4) := by
    norm_num [computeCandidateScoreProb]
  have hone : scoreCandidate zeroWeights uniformThreeQuarterGrid
      singlePointScan ⟨0, 0, 0, 0, 0, 0, 0⟩ =
      some ⟨0, 0, 0, 0, 0, 0, (3/4 : ℝ)⟩ := by
    simp [scoreCandidate, computeGridScore, uniformThreeQuarterGrid,
      singlePointScan, GRID_TYPE_PROBABILITY, hprob34, penaltyFactor, hypot,
      zeroWeights, -Prod.mk_zero_zero]
  have hcomp : scoreCandidates zeroWeights uniformThreeQuarterGrid
      singlePointScan trivialSearchParameters [⟨0, 0, 0, 0, 0, 0, 0⟩] =
      some [⟨0, 0, 0, 0, 0, 0, (3/4 : ℝ)⟩] := by
    unfold scoreCandidates
    simp only [List.mapM_cons, List.mapM_nil, hone]
    rfl
  exact ⟨hcomp, (scoreCandidates_frame_spec zeroWeights
    uniformThreeQuarterGrid singlePointScan trivialSearchParameters
    [⟨0, 0, 0, 0, 0, 0, 0⟩] [⟨0, 0, 0, 0, 0, 0, (3/4 : ℝ)⟩] hcomp).1⟩

end Cartographer
